import Mathlib

/-!
Shallow embedding of the diagnostics endpoints of the networking-toolbox
repository (AXFR prober, DNSBL blacklist checker, DNS resolver performance,
TLS certificate/version probing), together with theorems settling the
specification claims about them.

Network and process effects (DNS answers, `dig` output, TLS handshake
results, thrown exception messages) are modelled as explicit inputs; the
pure classification / aggregation logic is translated from the TypeScript
source.
-/

/-! ## JavaScript string primitives -/

/-- Embedding of JavaScript `String.prototype.includes`: substring test. -/
def jsIncludes (s pat : String) : Bool := decide (pat.data <:+: s.data)

/-- Embedding of JavaScript `String.prototype.startsWith`. -/
def jsStartsWith (s pat : String) : Bool := pat.data.isPrefixOf s.data

/-- Embedding of JavaScript `String.prototype.toLowerCase` (ASCII-adequate). -/
def lowerStr (s : String) : String := ⟨s.data.map Char.toLower⟩

/-- Truthiness of an optional JavaScript string field: present and non-empty. -/
def strTruthy : Option String → Bool
  | none => false
  | some s => s != ""

/-- JavaScript `split('.')` on the character list: keeps empty fields. -/
def splitDotAux : List Char → List Char → List (List Char)
  | [], acc => [acc.reverse]
  | c :: cs, acc =>
      if c = '.' then acc.reverse :: splitDotAux cs []
      else splitDotAux cs (c :: acc)

/-- JavaScript `split('.')`. -/
def splitDot (l : List Char) : List (List Char) := splitDotAux l []

/-- JavaScript `join('.')`. -/
def joinDot : List (List Char) → List Char
  | [] => []
  | [g] => g
  | g :: gs => g ++ '.' :: joinDot gs

/-! ## DNSBL checker (`src/routes/api/internal/diagnostics/dnsbl/+server.ts`) -/

/-- `reverseIPv4` from the DNSBL checker: `ip.split('.').reverse().join('.')`. -/
def reverseIPv4 (ip : String) : String := ⟨joinDot ((splitDot ip.data).reverse)⟩

/-- `isIPv4` from the DNSBL checker: the regex
`^(\d{1,3}\.){3}\d{1,3}$`, i.e. four dot-separated groups of 1 to 3 digits. -/
def isIPv4 (s : String) : Bool :=
  let parts := splitDot s.data
  parts.length = 4 &&
    parts.all (fun p => 1 ≤ p.length && p.length ≤ 3 && p.all Char.isDigit)

/-- Outcome of the `dns.resolve4`/`dns.resolveTxt` pair for one RBL zone
query, as seen by `checkRBL`: an A answer (with the optional joined TXT
payload), an `ENOTFOUND`/`ENODATA` rejection, or some other rejection. -/
inductive RBLOutcome where
  | answered (addr : String) (txt : Option String)
  | nxdomain
  | failed (message : String)

/-- `RBLResult` record from the DNSBL checker (fields relevant to
classification; `responseTime` is the measured wall-clock duration). -/
structure RBLResult where
  rbl : String
  listed : Bool
  response : Option String
  reason : Option String
  error : Option String
  responseTime : ℚ

/-- The TXT phrases that `checkRBL` treats as an error response
(checked on the lowercased payload). -/
def errorPhrases : List String :=
  ["open resolver", "query refused", "not supported", "check.spamhaus.org",
   "blocked - see", "access denied", "please use"]

/-- Classification core of `checkRBL`: given the DNS outcome for the zone
query, produce the `RBLResult` exactly as the TypeScript branches do. -/
def checkRBL (name : String) (out : RBLOutcome) (rt : ℚ) : RBLResult :=
  match out with
  | .answered addr txt =>
      let reason := txt
      let reasonTruthy := strTruthy reason
      let isErrorResponse :=
        jsStartsWith addr "127.255." ||
          (reasonTruthy &&
            errorPhrases.any (fun p => jsIncludes (lowerStr (reason.getD "")) p))
      if isErrorResponse then
        { rbl := name, listed := false, response := none, reason := none,
          error := some (if strTruthy reason then reason.getD ""
                         else "RBL query blocked or unsupported"),
          responseTime := rt }
      else
        { rbl := name, listed := true, response := some addr, reason := txt,
          error := none, responseTime := rt }
  | .nxdomain =>
      { rbl := name, listed := false, response := none, reason := none,
        error := none, responseTime := rt }
  | .failed msg =>
      { rbl := name, listed := false, response := none, reason := none,
        error := some msg, responseTime := rt }

/-- One `checkRBL` invocation's inputs in a POST run: the RBL display
name, the DNS outcome, and the measured duration. -/
structure RBLInput where
  name : String
  out : RBLOutcome
  rt : ℚ

/-- The `{ ...r, rbl := ... }` rename applied to IP-zone results in the
domain flow of the POST handler. -/
def renameRbl (ip : String) (r : RBLResult) : RBLResult :=
  { r with rbl := r.rbl ++ " (" ++ ip ++ ")" }

/-- `allResults` as assembled by the POST handler: domain-zone results,
then per-IP batches of renamed IP-zone results (for the bare-IP flow the
first list is the whole run and the batch list is empty). -/
def dnsblAllResults (domainBatch : List RBLInput)
    (ipBatches : List (String × List RBLInput)) : List RBLResult :=
  (domainBatch.map (fun i => checkRBL i.name i.out i.rt)) ++
    ipBatches.flatMap
      (fun b => (b.2.map (fun i => checkRBL i.name i.out i.rt)).map (renameRbl b.1))

/-- `summary` block of the DNSBL response. -/
structure DNSBLSummary where
  totalChecked : Nat
  listedCount : Nat
  cleanCount : Nat
  errorCount : Nat

/-- Summary computation of the DNSBL POST handler (JavaScript
`filter(...).length`, with the truthiness test on `r.error`). -/
def dnsblSummary (results : List RBLResult) : DNSBLSummary :=
  { totalChecked := results.length,
    listedCount := (results.filter (fun r => r.listed)).length,
    cleanCount := (results.filter (fun r => !r.listed && !strTruthy r.error)).length,
    errorCount := (results.filter (fun r => strTruthy r.error)).length }

/-! ## Generic partition lemma -/

/-- If every element of a list satisfies exactly one of three Boolean
predicates, the three filter counts add up to the length. -/
theorem length_filter_three_partition {α : Type} (p q r : α → Bool) (l : List α)
    (h : ∀ a ∈ l, (p a).toNat + (q a).toNat + (r a).toNat = 1) :
    (l.filter p).length + (l.filter q).length + (l.filter r).length = l.length := by
  induction l with
  | nil => simp
  | cons x xs ih =>
      have hx := h x (by simp)
      have htail : ∀ a ∈ xs, (p a).toNat + (q a).toNat + (r a).toNat = 1 :=
        fun a ha => h a (by simp [ha])
      have := ih htail
      by_cases hp : p x <;> by_cases hq : q x <;> by_cases hr : r x <;>
        simp_all [List.filter_cons] <;> omega

/-! ## split / join lemmas for the dot-separated representation -/

theorem splitDotAux_ne_nil (l acc : List Char) : splitDotAux l acc ≠ [] := by
  induction l generalizing acc with
  | nil => simp [splitDotAux]
  | cons c cs ih =>
      by_cases hc : c = '.' <;> simp [splitDotAux, hc, ih]

theorem joinDot_cons_of_ne_nil (g : List Char) (gs : List (List Char))
    (h : gs ≠ []) : joinDot (g :: gs) = g ++ '.' :: joinDot gs := by
  cases gs with
  | nil => exact absurd rfl h
  | cons g2 gs2 => rfl

theorem joinDot_splitDotAux (l acc : List Char) :
    joinDot (splitDotAux l acc) = acc.reverse ++ l := by
  induction l generalizing acc with
  | nil => simp [splitDotAux, joinDot]
  | cons c cs ih =>
      by_cases hc : c = '.'
      · rw [splitDotAux, if_pos hc,
          joinDot_cons_of_ne_nil _ _ (splitDotAux_ne_nil cs []), ih]
        simp [hc]
      · rw [splitDotAux, if_neg hc, ih]
        simp

/-- `join('.')` undoes `split('.')` on any character list. -/
theorem joinDot_splitDot (l : List Char) : joinDot (splitDot l) = l := by
  simpa using joinDot_splitDotAux l []

theorem mem_splitDotAux_no_dot (l acc g : List Char) (hacc : '.' ∉ acc)
    (hg : g ∈ splitDotAux l acc) : '.' ∉ g := by
  induction l generalizing acc with
  | nil =>
      simp [splitDotAux] at hg
      subst hg
      simpa using hacc
  | cons c cs ih =>
      by_cases hc : c = '.'
      · rw [splitDotAux, if_pos hc] at hg
        rcases List.mem_cons.mp hg with h1 | h2
        · subst h1; simpa using hacc
        · exact ih [] (by simp) h2
      · rw [splitDotAux, if_neg hc] at hg
        exact ih (c :: acc) (by simp [hacc, Ne.symm hc]) hg

theorem mem_splitDot_no_dot (l g : List Char) (hg : g ∈ splitDot l) : '.' ∉ g :=
  mem_splitDotAux_no_dot l [] g (by simp) hg

theorem splitDotAux_no_dot (l acc : List Char) (h : '.' ∉ l) :
    splitDotAux l acc = [acc.reverse ++ l] := by
  induction l generalizing acc with
  | nil => simp [splitDotAux]
  | cons c cs ih =>
      have hc : c ≠ '.' := fun hcc => h (by simp [hcc])
      rw [splitDotAux, if_neg hc, ih (c :: acc) (fun hm => h (by simp [hm]))]
      simp

theorem splitDotAux_append_dot (g rest acc : List Char) (h : '.' ∉ g) :
    splitDotAux (g ++ '.' :: rest) acc =
      (acc.reverse ++ g) :: splitDotAux rest [] := by
  induction g generalizing acc with
  | nil => simp [splitDotAux]
  | cons c cs ih =>
      have hc : c ≠ '.' := fun hcc => h (by simp [hcc])
      rw [List.cons_append, splitDotAux, if_neg hc,
        ih (c :: acc) (fun hm => h (by simp [hm]))]
      simp

/-- `split('.')` undoes `join('.')` when the chunks are dot-free. -/
theorem splitDot_joinDot (gs : List (List Char)) (hne : gs ≠ [])
    (h : ∀ g ∈ gs, '.' ∉ g) : splitDot (joinDot gs) = gs := by
  induction gs with
  | nil => exact absurd rfl hne
  | cons g gs2 ih =>
      cases gs2 with
      | nil =>
          have := splitDotAux_no_dot g [] (h g (by simp))
          simpa [splitDot, joinDot] using this
      | cons g2 gs3 =>
          rw [joinDot_cons_of_ne_nil g (g2 :: gs3) (by simp), splitDot,
            splitDotAux_append_dot g _ [] (h g (by simp))]
          have := ih (by simp) (fun a ha => h a (by simp [ha]))
          rw [splitDot] at this
          simp [this]

/-- Double reversal of the dot-separated field list is the identity, for
every string (in particular for every dotted-quad IPv4 address). -/
theorem reverseIPv4_reverseIPv4 (s : String) :
    reverseIPv4 (reverseIPv4 s) = s := by
  cases s with
  | mk data =>
      show String.mk (joinDot ((splitDot (joinDot ((splitDot data).reverse))).reverse)) = _
      rw [splitDot_joinDot ((splitDot data).reverse)
          (by simpa using splitDotAux_ne_nil data [])
          (fun g hg => mem_splitDot_no_dot data g (List.mem_reverse.mp hg)),
        List.reverse_reverse, joinDot_splitDot]

/-! ## Claim C9: IPv4 reversal is an involution -/

/-- C9: for every dotted-quad IPv4 string (the `isIPv4` guard of the DNSBL
checker), applying the checker's IPv4 reversal twice returns the original
string. -/
theorem reverseIPv4_involution (ip : String) (_h : isIPv4 ip = true) :
    reverseIPv4 (reverseIPv4 ip) = ip :=
  reverseIPv4_reverseIPv4 ip

theorem reverseIPv4_involution_witness :
    isIPv4 "203.0.113.7" = true ∧
      reverseIPv4 (reverseIPv4 "203.0.113.7") = "203.0.113.7" :=
  ⟨by decide, reverseIPv4_involution "203.0.113.7" (by decide)⟩

/-! ## Claim C2: DNSBL summary partitions the result list -/

theorem checkRBL_listed_no_error (name : String) (out : RBLOutcome) (rt : ℚ)
    (h : (checkRBL name out rt).listed = true) :
    (checkRBL name out rt).error = none := by
  cases out with
  | answered addr txt =>
      by_cases hresp :
          (jsStartsWith addr "127.255." ||
            (strTruthy txt &&
              errorPhrases.any (fun p => jsIncludes (lowerStr (txt.getD "")) p))) = true
      · simp [checkRBL, hresp] at h
      · simp only [checkRBL]
        rw [if_neg (by simpa using hresp)]
  | nxdomain => rfl
  | failed msg => simp [checkRBL] at h

theorem mem_dnsblAllResults_listed_no_error (domainBatch : List RBLInput)
    (ipBatches : List (String × List RBLInput)) (r : RBLResult)
    (hr : r ∈ dnsblAllResults domainBatch ipBatches)
    (hl : r.listed = true) : r.error = none := by
  rw [dnsblAllResults, List.mem_append] at hr
  rcases hr with hd | hi
  · rcases List.mem_map.mp hd with ⟨i, _, hi2⟩
    subst hi2
    exact checkRBL_listed_no_error _ _ _ hl
  · rcases List.mem_flatMap.mp hi with ⟨b, _, hb2⟩
    rcases List.mem_map.mp hb2 with ⟨r0, hr0, hr02⟩
    rcases List.mem_map.mp hr0 with ⟨i, _, hi2⟩
    subst hi2
    subst hr02
    exact checkRBL_listed_no_error _ _ _ hl

/-- C2: for every DNSBL run (domain-zone batch plus per-IP batches, the
bare-IP flow being the degenerate case), `summary.totalChecked` equals the
length of the results array, and listed + clean + error counts equal it
exactly. -/
theorem dnsbl_summary_partition (domainBatch : List RBLInput)
    (ipBatches : List (String × List RBLInput)) :
    (dnsblSummary (dnsblAllResults domainBatch ipBatches)).totalChecked
        = (dnsblAllResults domainBatch ipBatches).length ∧
    (dnsblSummary (dnsblAllResults domainBatch ipBatches)).listedCount
        + (dnsblSummary (dnsblAllResults domainBatch ipBatches)).cleanCount
        + (dnsblSummary (dnsblAllResults domainBatch ipBatches)).errorCount
        = (dnsblSummary (dnsblAllResults domainBatch ipBatches)).totalChecked := by
  refine ⟨rfl, ?_⟩
  show (List.filter _ _).length + (List.filter _ _).length
      + (List.filter _ _).length = _
  apply length_filter_three_partition
  intro r hr
  by_cases hl : r.listed
  · have := mem_dnsblAllResults_listed_no_error domainBatch ipBatches r hr hl
    simp [hl, this, strTruthy]
  · by_cases he : strTruthy r.error <;> simp [hl, he]

/-! ## Claim C4: error-range and access-denied answers never count as listed -/

theorem isPrefixOf_append {α : Type} [DecidableEq α] (l r : List α) :
    l.isPrefixOf (l ++ r) = true := by
  induction l with
  | nil => simp [List.isPrefixOf]
  | cons c cs ih => simp [List.isPrefixOf, ih]

/-- Membership of a dotted-quad string in `127.255.0.0/16`. -/
def inErrorRange (addr : String) : Prop :=
  ∃ a b : Nat, a < 256 ∧ b < 256 ∧
    addr = "127.255." ++ toString a ++ "." ++ toString b

/-- C4: a zone answer in the `127.255.0.0/16` range, or one whose TXT
payload contains the phrase "access denied" (case-insensitively), is
classified by `checkRBL` as an error, with `listed = false` and a truthy
`error` field — never as `listed = true`. -/
theorem checkRBL_error_range_classified (name addr : String)
    (txt : Option String) (rt : ℚ)
    (h : inErrorRange addr ∨
      ∃ s, txt = some s ∧ "access denied".data <:+: (lowerStr s).data) :
    (checkRBL name (.answered addr txt) rt).listed = false ∧
    strTruthy (checkRBL name (.answered addr txt) rt).error = true := by
  have hresp :
      (jsStartsWith addr "127.255." ||
        (strTruthy txt &&
          errorPhrases.any (fun p => jsIncludes (lowerStr (txt.getD "")) p))) = true := by
    rcases h with ⟨a, b, _, _, haddr⟩ | ⟨s, hts, hinf⟩
    · subst haddr
      apply Bool.or_eq_true_iff.mpr
      left
      rw [jsStartsWith]
      have : "127.255." ++ toString a ++ "." ++ toString b
          = "127.255." ++ (toString a ++ "." ++ toString b) := by
        simp [String.append_assoc]
      rw [this, String.data_append]
      exact isPrefixOf_append _ _
    · subst hts
      apply Bool.or_eq_true_iff.mpr
      right
      have hs : s ≠ "" := by
        intro hs0
        subst hs0
        have hlen := hinf.length_le
        simp [lowerStr] at hlen
      apply Bool.and_eq_true_iff.mpr
      refine ⟨by simp [strTruthy, hs], ?_⟩
      apply List.any_eq_true.mpr
      refine ⟨"access denied", by simp [errorPhrases], ?_⟩
      simpa [jsIncludes, Option.getD] using hinf
  constructor
  · simp [checkRBL, hresp]
  · simp only [checkRBL, hresp]
    rw [if_pos trivial]
    cases txt with
    | none => simp [strTruthy]
    | some s =>
        by_cases hs : s = "" <;> simp [strTruthy, hs]

theorem checkRBL_error_range_classified_witness :
    (checkRBL "SORBS" (.answered "127.255.0.1" none) 1).listed = false ∧
    strTruthy (checkRBL "SORBS" (.answered "127.255.0.1" none) 1).error = true :=
  checkRBL_error_range_classified "SORBS" "127.255.0.1" none 1
    (Or.inl ⟨0, 1, by decide, by decide, by decide⟩)

/-! ## AXFR prober (`src/routes/api/internal/diagnostics/axfr/+server.ts`) -/

/-- JavaScript `split(sep)` for a one-character separator, on character
lists, keeping empty fields. -/
def splitCharAux (sep : Char) : List Char → List Char → List (List Char)
  | [], acc => [acc.reverse]
  | c :: cs, acc =>
      if c = sep then acc.reverse :: splitCharAux sep cs []
      else splitCharAux sep cs (c :: acc)

/-- JavaScript `output.split('\n')`. -/
def splitLines (s : String) : List String :=
  (splitCharAux '\n' s.data []).map String.mk

/-- Consume one or more characters satisfying `p` (the `X+` regex pieces;
greedy matching is exact here because every following piece starts with a
character class disjoint from the current one). -/
def eatPlus (p : Char → Bool) : List Char → Option (List Char)
  | [] => none
  | c :: cs => if p c then some (cs.dropWhile p) else none

/-- Consume one literal character. -/
def eatChar (c : Char) : List Char → Option (List Char)
  | [] => none
  | d :: ds => if d = c then some ds else none

/-- Regex `\w`: alphanumeric or underscore. -/
def isWordChar (c : Char) : Bool := c.isAlphanum || c = '_'

/-- The zone-record shape regex `^\S+\s+\d+\s+IN\s+\w+\s+` of `testAXFR`. -/
def matchZoneRecord (line : String) : Bool :=
  (((((((((eatPlus (fun c => !c.isWhitespace) line.data).bind
    (eatPlus Char.isWhitespace)).bind
    (eatPlus Char.isDigit)).bind
    (eatPlus Char.isWhitespace)).bind
    (eatChar 'I')).bind
    (eatChar 'N')).bind
    (eatPlus Char.isWhitespace)).bind
    (eatPlus isWordChar)).bind
    (eatPlus Char.isWhitespace)).isSome

/-- Prefix test against the dig metadata markers
`^(DiG|global|Query|Transfer|connection|WARNING)` of `testAXFR`. -/
def digMetaStart (t : String) : Bool :=
  jsStartsWith t "DiG" || jsStartsWith t "global" || jsStartsWith t "Query" ||
    jsStartsWith t "Transfer" || jsStartsWith t "connection" ||
    jsStartsWith t "WARNING"

/-- The line filter of `testAXFR`: trimmed line non-empty, no comment or
banner marker, no dig metadata keyword. -/
def keepLine (line : String) : Bool :=
  let t := line.trim
  t != "" && !jsStartsWith t ";" && !jsStartsWith t "<<>>" && !digMetaStart t

/-- Outcome of the raced `execAsync('dig ... AXFR ...')` call: either the
captured stdout/stderr pair, or a thrown error (its message and whether its
`code` is `ENOENT`); the 10 s `Promise.race` timeout surfaces here as a
thrown `'AXFR query timeout'` error. -/
inductive ExecOutcome where
  | ok (stdout stderr : String)
  | caught (message : String) (enoent : Bool)

/-- `NameserverResult` record of the AXFR prober. -/
structure NameserverResult where
  nameserver : String
  ip : String
  vulnerable : Bool
  recordCount : Option Nat
  records : Option (List String)
  error : Option String
  responseTime : ℚ

/-- JavaScript `msg.split('\n')[0].substring(0, 100)`. -/
def firstLine100 (msg : String) : String :=
  String.mk (((splitCharAux '\n' msg.data []).headD []).take 100)

/-- The error-message selection of `testAXFR`'s catch branch. -/
def axfrErrorMsg (msg : String) (enoent : Bool) : String :=
  if jsIncludes msg "timeout" then "Query timeout"
  else if jsIncludes msg "not found" then "Nameserver not found"
  else if enoent then "dig command not available"
  else if msg != "" then firstLine100 msg
  else "Unknown error"

/-- `MAX_RECORDS_DISPLAY` from the AXFR prober. -/
def MAX_RECORDS_DISPLAY : Nat := 50

/-- `testAXFR`, as a function of the dig invocation's outcome and of the
measured (already rounded) wall-clock duration `rt`. -/
def testAXFR (nameserver ip : String) (out : ExecOutcome) (rt : ℚ) :
    NameserverResult :=
  match out with
  | .ok stdout stderr =>
      let output := stdout ++ stderr
      if jsIncludes output "Transfer failed" || jsIncludes output "failed" then
        ⟨nameserver, ip, false, none, none, some "Transfer refused (secure)", rt⟩
      else if jsIncludes output "connection timed out" ||
          jsIncludes output "no servers could be reached" then
        ⟨nameserver, ip, false, none, none, some "Connection timeout", rt⟩
      else
        let lines := (splitLines output).filter keepLine
        let zoneRecords := lines.filter matchZoneRecord
        if 0 < lines.length && 0 < zoneRecords.length then
          ⟨nameserver, ip, true, some zoneRecords.length,
            some (zoneRecords.take MAX_RECORDS_DISPLAY), none, rt⟩
        else
          ⟨nameserver, ip, false, none, none, some "Transfer refused (secure)", rt⟩
  | .caught msg enoent =>
      ⟨nameserver, ip, false, none, none, some (axfrErrorMsg msg enoent), rt⟩

/-- One nameserver's fate in the POST handler's `Promise.all` map: either
`resolveNameserverIP` threw (the catch builds an `N/A` record from the
error message), or `testAXFR` ran with some dig outcome. -/
inductive NSInput where
  | resolveFail (nameserver message : String)
  | probed (nameserver ip : String) (out : ExecOutcome) (rt : ℚ)

/-- The per-nameserver result constructed by the POST handler. -/
def runNS : NSInput → NameserverResult
  | .resolveFail ns msg =>
      ⟨ns, "N/A", false, none, none,
        some (if msg != "" then msg else "Failed to resolve nameserver"), 0⟩
  | .probed ns ip out rt => testAXFR ns ip out rt

/-- `summary` block of the AXFR response. -/
structure AXFRSummary where
  total : Nat
  vulnerable : Nat
  secure : Nat
  errors : Nat

/-- Summary computation of the AXFR POST handler (JavaScript
`filter(...).length` with truthiness on `r.error`). -/
def axfrSummary (results : List NameserverResult) : AXFRSummary :=
  { total := results.length,
    vulnerable := (results.filter (fun r => r.vulnerable)).length,
    secure := (results.filter (fun r => !r.vulnerable && !strTruthy r.error)).length,
    errors := (results.filter (fun r => strTruthy r.error)).length }

theorem runNS_vulnerable_no_error (i : NSInput) :
    (runNS i).vulnerable = true → (runNS i).error = none := by
  cases i with
  | resolveFail ns msg => intro h; simp [runNS] at h
  | probed ns ip out rt =>
      cases out with
      | ok stdout stderr =>
          intro h
          simp only [runNS, testAXFR] at h ⊢
          split at h
          · simp at h
          · split at h
            · simp at h
            · split at h
              · simp_all
              · simp at h
      | caught msg enoent => intro h; simp [runNS, testAXFR] at h

/-! ## Claim C1: AXFR summary partitions the nameserver results -/

/-- C1: for every AXFR run, `summary.total` equals the length of the
nameserver result array, and vulnerable + secure + errors equals the
total, each result landing in exactly one bucket. -/
theorem axfr_summary_partition (inputs : List NSInput) :
    (axfrSummary (inputs.map runNS)).total = (inputs.map runNS).length ∧
    (axfrSummary (inputs.map runNS)).vulnerable
        + (axfrSummary (inputs.map runNS)).secure
        + (axfrSummary (inputs.map runNS)).errors
        = (axfrSummary (inputs.map runNS)).total := by
  refine ⟨rfl, ?_⟩
  show (List.filter _ _).length + (List.filter _ _).length
      + (List.filter _ _).length = _
  apply length_filter_three_partition
  intro r hr
  rcases List.mem_map.mp hr with ⟨i, _, hi⟩
  subst hi
  by_cases hv : (runNS i).vulnerable
  · have := runNS_vulnerable_no_error i hv
    simp [hv, this, strTruthy]
  · by_cases he : strTruthy (runNS i).error <;> simp [hv, he]

/-! ## Claim C10: the `secure` bucket of the AXFR summary -/

/-- The only way `runNS` can yield a falsy `error` on a non-vulnerable
result: `testAXFR` caught an exception whose message misses the
timeout/not-found/ENOENT cases, is non-empty, yet has an empty first line. -/
def producesEmptyError : NSInput → Bool
  | .probed _ _ (.caught msg enoent) _ =>
      !jsIncludes msg "timeout" && !jsIncludes msg "not found" && !enoent &&
        msg != "" && firstLine100 msg == ""
  | _ => false

theorem runNS_vulnerable_or_error (i : NSInput)
    (h : producesEmptyError i = false) :
    (runNS i).vulnerable = true ∨ strTruthy (runNS i).error = true := by
  cases i with
  | resolveFail ns msg =>
      right
      by_cases hm : msg = "" <;> simp [runNS, strTruthy, hm]
  | probed ns ip out rt =>
      cases out with
      | ok stdout stderr =>
          simp only [runNS, testAXFR]
          split
          · right; simp [strTruthy]
          · split
            · right; simp [strTruthy]
            · split
              · left; rfl
              · right; simp [strTruthy]
      | caught msg enoent =>
          right
          simp only [runNS, testAXFR, strTruthy, axfrErrorMsg]
          simp only [producesEmptyError] at h
          by_cases h1 : jsIncludes msg "timeout"
          · simp [h1]
          · by_cases h2 : jsIncludes msg "not found"
            · simp [h1, h2]
            · by_cases h3 : enoent
              · simp [h1, h2, h3]
              · by_cases h4 : msg = ""
                · subst h4
                  simp only [Bool.not_eq_true] at h3
                  subst h3
                  decide
                · simp [h1, h2, h3, h4] at h ⊢
                  simpa using h

/-- C10 counterexample: an exception whose message is truthy but has an
empty first line yields a non-vulnerable result whose `error` is the empty
string, so it is counted as `secure`: the summary's `secure` field is 1,
not 0, and the result's error string is empty rather than non-empty. -/
theorem axfr_secure_nonzero_example :
    (runNS (.probed "ns1.example.com" "192.0.2.1" (.caught "\nboom" false) 7)).vulnerable
        = false ∧
    (runNS (.probed "ns1.example.com" "192.0.2.1" (.caught "\nboom" false) 7)).error
        = some "" ∧
    (axfrSummary ([NSInput.probed "ns1.example.com" "192.0.2.1"
        (.caught "\nboom" false) 7].map runNS)).secure = 1 := by
  refine ⟨rfl, ?_, ?_⟩ <;> decide

/-- C10 (amended): every non-vulnerable per-nameserver result carries the
`error` field; it is non-empty — and hence `summary.secure = 0` — provided
no caught exception message evades all catch cases with an empty first
line. -/
theorem axfr_secure_zero (inputs : List NSInput)
    (h : ∀ i ∈ inputs, producesEmptyError i = false) :
    (axfrSummary (inputs.map runNS)).secure = 0 := by
  show (List.filter _ _).length = 0
  rw [List.length_eq_zero, List.filter_eq_nil_iff]
  intro r hr
  rcases List.mem_map.mp hr with ⟨i, hi, hi2⟩
  subst hi2
  rcases runNS_vulnerable_or_error i (h i hi) with hv | he
  · simp [hv]
  · simp [he]

theorem axfr_secure_zero_witness :
    (axfrSummary ([NSInput.probed "ns1.example.com" "192.0.2.1"
        (.ok "" "Transfer failed; secure") 3].map runNS)).secure = 0 :=
  axfr_secure_zero _ (by decide)

/-! ## Resolver performance (`src/routes/api/internal/diagnostics/dns-performance/+server.ts`) -/

/-- JavaScript `Math.round(x * 100) / 100` (round half toward +∞), the
rounding applied to every measured duration and statistic. -/
def round2 (x : ℚ) : ℚ := (⌊x * 100 + 1 / 2⌋ : ℤ) / 100

/-- The `code` of a DNS rejection, as tested by the catch branch; the
`withTimeout` race rejects with code `ETIMEOUT`. -/
inductive DNSCode where
  | enotfound | enodata | etimeout | eservfail | erefused | other

/-- Outcome of one `queryResolver` call: the record strings with the raw
elapsed time, or a rejection with its code and message. -/
inductive ResolverOutcome where
  | success (records : List String) (rawTime : ℚ)
  | failure (code : DNSCode) (message : String)

/-- `ResolverResult` record of the resolver-performance endpoint. -/
structure ResolverResult where
  resolver : String
  resolverName : String
  success : Bool
  responseTime : ℚ
  records : Option (List String)
  error : Option String

/-- The per-resolver result built in the POST handler's `Promise.all` map:
successes carry the rounded measured time and up to 10 records; failures
carry a classified error message and `responseTime: 0`. -/
def mkResolverResult (ip name recordType : String) (out : ResolverOutcome) :
    ResolverResult :=
  match out with
  | .success recs raw =>
      { resolver := ip, resolverName := name, success := true,
        responseTime := round2 raw, records := some (recs.take 10), error := none }
  | .failure code msg =>
      let errorMsg :=
        match code with
        | .enotfound => "Domain not found"
        | .enodata => "No " ++ recordType ++ " records"
        | .etimeout => "Query timeout (>5s)"
        | .eservfail => "Server failure"
        | .erefused => "Query refused"
        | .other => if msg != "" then msg else "Unknown error"
      { resolver := ip, resolverName := name, success := false,
        responseTime := 0, records := none, error := some errorMsg }

/-- `statistics` block of the resolver-performance response (rationals
stand in for JavaScript numbers). -/
structure DNSStats where
  fastestName : String
  fastestTime : ℚ
  slowestName : String
  slowestTime : ℚ
  average : ℚ
  median : ℚ
  successRate : ℚ

/-- The ascending sort `responseTimes.sort((a, b) => a - b)` (numeric
ascending; any comparison sort yields the same value list). -/
def sortTimes (l : List ℚ) : List ℚ := List.insertionSort (· ≤ ·) l

/-- Statistics computation of the resolver-performance POST handler. -/
def computeStats (results : List ResolverResult) : DNSStats :=
  let successfulResults := results.filter (fun r => r.success)
  let responseTimes := sortTimes (successfulResults.map (fun r => r.responseTime))
  match successfulResults with
  | [] =>
      { fastestName := "N/A", fastestTime := 0, slowestName := "N/A",
        slowestTime := 0, average := 0, median := 0, successRate := 0 }
  | s0 :: srest =>
      let fastestResult :=
        srest.foldl (fun prev curr =>
          if prev.responseTime < curr.responseTime then prev else curr) s0
      let slowestResult :=
        srest.foldl (fun prev curr =>
          if prev.responseTime > curr.responseTime then prev else curr) s0
      let n := responseTimes.length
      let average := responseTimes.sum / n
      let median :=
        if n % 2 = 0 then
          (responseTimes.getD (n / 2 - 1) 0 + responseTimes.getD (n / 2) 0) / 2
        else responseTimes.getD (n / 2) 0
      { fastestName := fastestResult.resolverName,
        fastestTime := fastestResult.responseTime,
        slowestName := slowestResult.resolverName,
        slowestTime := slowestResult.responseTime,
        average := round2 average,
        median := round2 median,
        successRate := round2 ((successfulResults.length : ℚ) / results.length * 100) }

/-! ## Claim C5: responseTime of timeout-classified outcomes -/

/-- C5 counterexample: the resolver-performance prober classifies the
`ETIMEOUT` rejection of its 5000 ms `withTimeout` race as a timeout, yet
records `responseTime = 0`, far below the nominal timeout minus any
scheduling slack. -/
theorem dnsperf_timeout_zero_example :
    (mkResolverResult "8.8.8.8" "Google" "A"
        (.failure .etimeout "DNS query timeout")).error = some "Query timeout (>5s)" ∧
    (mkResolverResult "8.8.8.8" "Google" "A"
        (.failure .etimeout "DNS query timeout")).success = false ∧
    (mkResolverResult "8.8.8.8" "Google" "A"
        (.failure .etimeout "DNS query timeout")).responseTime = 0 ∧
    (mkResolverResult "8.8.8.8" "Google" "A"
        (.failure .etimeout "DNS query timeout")).responseTime < 5000 := by
  refine ⟨rfl, rfl, rfl, by norm_num [mkResolverResult]⟩

/-- C5 (amended): every failed probe in the resolver-performance prober —
in particular every timeout-classified one — carries `responseTime = 0`;
no elapsed-time lower bound holds there. -/
theorem dnsperf_failure_responseTime_zero (ip name recordType : String)
    (code : DNSCode) (msg : String) :
    (mkResolverResult ip name recordType (.failure code msg)).success = false ∧
    (mkResolverResult ip name recordType (.failure code msg)).responseTime = 0 :=
  ⟨rfl, rfl⟩

/-! ## Claim C8: the median statistic -/

theorem round2_round2 (x : ℚ) : round2 (round2 x) = round2 x := by
  unfold round2
  have h1 : (((⌊x * 100 + 1 / 2⌋ : ℤ) : ℚ)) / 100 * 100 + 1 / 2
      = ((⌊x * 100 + 1 / 2⌋ : ℤ) : ℚ) + 1 / 2 := by
    rw [div_mul_cancel₀]
    norm_num
  rw [h1, Int.floor_int_add]
  norm_num

theorem mem_sortTimes (l : List ℚ) (t : ℚ) :
    t ∈ sortTimes l ↔ t ∈ l := by
  rw [sortTimes]
  exact (List.perm_insertionSort (· ≤ ·) l).mem_iff

theorem length_sortTimes (l : List ℚ) : (sortTimes l).length = l.length :=
  (List.perm_insertionSort (· ≤ ·) l).length_eq

/-- A successful result built by the POST handler carries a
`Math.round`-rounded response time. -/
theorem success_responseTime_rounded (recordType : String)
    (inputs : List (String × String × ResolverOutcome)) (r : ResolverResult)
    (hr : r ∈ inputs.map (fun i => mkResolverResult i.1 i.2.1 recordType i.2.2))
    (hs : r.success = true) : ∃ raw, r.responseTime = round2 raw := by
  rcases List.mem_map.mp hr with ⟨i, _, hi⟩
  subst hi
  rcases i with ⟨ip, name, out⟩
  cases out with
  | success recs raw => exact ⟨raw, rfl⟩
  | failure code msg => simp [mkResolverResult] at hs

/-- C8 counterexample: two successes measured at 0.012 and 0.018 units
give rounded response times 0.01 and 0.02; the average of the two middle
elements is 0.015, but `statistics.median` is its two-decimal rounding
0.02 — the claim's even-count equality fails. -/
theorem dnsperf_median_rounding_example :
    (computeStats ([("1.1.1.1", "Cloudflare",
          ResolverOutcome.success ["198.51.100.1"] (12 / 1000)),
        ("8.8.8.8", "Google",
          ResolverOutcome.success ["198.51.100.2"] (18 / 1000))].map
        (fun i => mkResolverResult i.1 i.2.1 "A" i.2.2))).median = 2 / 100 ∧
    ((1 : ℚ) / 100 + 2 / 100) / 2 = 3 / 200 ∧
    ((2 : ℚ) / 100) ≠ 3 / 200 := by
  have hf1 : (⌊(12 : ℚ) / 1000 * 100 + 1 / 2⌋ : ℤ) = 1 := by
    rw [Int.floor_eq_iff]
    norm_num
  have hf2 : (⌊(18 : ℚ) / 1000 * 100 + 1 / 2⌋ : ℤ) = 2 := by
    rw [Int.floor_eq_iff]
    norm_num
  have hf3 : (⌊(3 : ℚ) / 200 * 100 + 1 / 2⌋ : ℤ) = 2 := by
    rw [Int.floor_eq_iff]
    norm_num
  have h1 : round2 (12 / 1000) = 1 / 100 := by rw [round2, hf1]; norm_num
  have h2 : round2 (18 / 1000) = 2 / 100 := by rw [round2, hf2]; norm_num
  have h3 : round2 ((3 : ℚ) / 200) = 1 / 50 := by
    rw [round2, hf3]
    norm_num
  have hmap : [("1.1.1.1", "Cloudflare",
          ResolverOutcome.success ["198.51.100.1"] (12 / 1000)),
        ("8.8.8.8", "Google",
          ResolverOutcome.success ["198.51.100.2"] (18 / 1000))].map
        (fun i => mkResolverResult i.1 i.2.1 "A" i.2.2)
      = [⟨"1.1.1.1", "Cloudflare", true, 1 / 100, some ["198.51.100.1"], none⟩,
         ⟨"8.8.8.8", "Google", true, 2 / 100, some ["198.51.100.2"], none⟩] := by
    simp [mkResolverResult, h1, h2]
  refine ⟨?_, by norm_num, by norm_num⟩
  rw [hmap]
  have hsort : sortTimes [(1 : ℚ) / 100, 2 / 100] = [1 / 100, 2 / 100] := by
    norm_num [sortTimes, List.insertionSort, List.orderedInsert]
  simp only [computeStats, List.filter, List.map, hsort]
  norm_num [List.getD, h3]

/-- C8 (amended): for every resolver-performance run with at least one
success, `statistics.median` equals the middle element of the
ascending-sorted successful response-time list when the count is odd
(exactly, since those times are already rounded to two decimals), and the
two-decimal rounding of the average of the two middle elements when the
count is even. -/
theorem dnsperf_median_spec (recordType : String)
    (inputs : List (String × String × ResolverOutcome))
    (hne : (((inputs.map (fun i => mkResolverResult i.1 i.2.1 recordType i.2.2)).filter
        (fun r => r.success)).length) ≠ 0) :
    ((sortTimes (((inputs.map (fun i => mkResolverResult i.1 i.2.1 recordType i.2.2)).filter
          (fun r => r.success)).map (fun r => r.responseTime))).length % 2 = 1 →
      (computeStats (inputs.map (fun i => mkResolverResult i.1 i.2.1 recordType i.2.2))).median
        = (sortTimes (((inputs.map (fun i => mkResolverResult i.1 i.2.1 recordType i.2.2)).filter
            (fun r => r.success)).map (fun r => r.responseTime))).getD
          ((sortTimes (((inputs.map (fun i => mkResolverResult i.1 i.2.1 recordType i.2.2)).filter
            (fun r => r.success)).map (fun r => r.responseTime))).length / 2) 0) ∧
    ((sortTimes (((inputs.map (fun i => mkResolverResult i.1 i.2.1 recordType i.2.2)).filter
          (fun r => r.success)).map (fun r => r.responseTime))).length % 2 = 0 →
      (computeStats (inputs.map (fun i => mkResolverResult i.1 i.2.1 recordType i.2.2))).median
        = round2 (((sortTimes (((inputs.map (fun i => mkResolverResult i.1 i.2.1 recordType i.2.2)).filter
            (fun r => r.success)).map (fun r => r.responseTime))).getD
          ((sortTimes (((inputs.map (fun i => mkResolverResult i.1 i.2.1 recordType i.2.2)).filter
            (fun r => r.success)).map (fun r => r.responseTime))).length / 2 - 1) 0
          + (sortTimes (((inputs.map (fun i => mkResolverResult i.1 i.2.1 recordType i.2.2)).filter
            (fun r => r.success)).map (fun r => r.responseTime))).getD
          ((sortTimes (((inputs.map (fun i => mkResolverResult i.1 i.2.1 recordType i.2.2)).filter
            (fun r => r.success)).map (fun r => r.responseTime))).length / 2) 0) / 2)) := by
  set results := inputs.map (fun i => mkResolverResult i.1 i.2.1 recordType i.2.2) with hres
  set times := sortTimes ((results.filter (fun r => r.success)).map
      (fun r => r.responseTime)) with htimes
  have hmed : ∀ s0 srest, results.filter (fun r => r.success) = s0 :: srest →
      (computeStats results).median
        = round2 (if times.length % 2 = 0 then
            (times.getD (times.length / 2 - 1) 0 + times.getD (times.length / 2) 0) / 2
          else times.getD (times.length / 2) 0) := by
    intro s0 srest hf
    simp only [computeStats, hf, htimes, hres]
  rcases hfe : results.filter (fun r => r.success) with _ | ⟨s0, srest⟩
  · rw [hres] at hfe
    rw [hfe] at hne
    simp at hne
  · have hm := hmed s0 srest hfe
    constructor
    · intro hodd
      rw [hm, if_neg (by omega)]
      have hlt : times.length / 2 < times.length := by
        have : times.length ≠ 0 := by
          rw [htimes, length_sortTimes, List.length_map, hfe]
          simp
        exact Nat.div_lt_self (Nat.pos_of_ne_zero this) (by norm_num)
      have hmem : times.getD (times.length / 2) 0 ∈ times := by
        rw [List.getD_eq_getElem _ _ hlt]
        exact List.getElem_mem hlt
      have hmem2 : times.getD (times.length / 2) 0
          ∈ (results.filter (fun r => r.success)).map (fun r => r.responseTime) := by
        rw [htimes] at hmem
        exact (mem_sortTimes _ _).mp hmem
      rcases List.mem_map.mp hmem2 with ⟨r, hrmem, hrt⟩
      have hrs : r.success = true := (List.mem_filter.mp hrmem).2
      rcases success_responseTime_rounded recordType inputs r
          (by rw [← hres]; exact (List.mem_filter.mp hrmem).1) hrs with ⟨raw, hraw⟩
      rw [← hrt, hraw, round2_round2]
    · intro heven
      rw [hm, if_pos heven]

theorem dnsperf_median_spec_witness :
    (computeStats ([("1.1.1.1", "Cloudflare",
        ResolverOutcome.success ["198.51.100.7"] (5 / 2))].map
        (fun i => mkResolverResult i.1 i.2.1 "A" i.2.2))).median = 5 / 2 := by
  have hf : (⌊(5 : ℚ) / 2 * 100 + 1 / 2⌋ : ℤ) = 250 := by
    rw [Int.floor_eq_iff]
    norm_num
  have hr : round2 (5 / 2) = 5 / 2 := by
    rw [round2, hf]
    norm_num
  have h := dnsperf_median_spec "A"
      [("1.1.1.1", "Cloudflare", ResolverOutcome.success ["198.51.100.7"] (5 / 2))]
      (by simp [mkResolverResult])
  have h1 := h.1 (by simp [mkResolverResult, sortTimes, List.insertionSort, List.orderedInsert])
  rw [h1]
  simp [mkResolverResult, sortTimes, List.insertionSort, List.orderedInsert, List.getD, hr]

/-! ## TLS certificate chain extraction (`getCertificateInfo`) -/

/-- The chain-walking loop of `getCertificateInfo`. Certificates are
modelled as heap addresses: `issuer` is the `issuerCertificate` reference
(`none` = `undefined`), `ne c` is `Object.keys(c).length > 0`, and `leaf`
is the peer certificate the `currentCert === cert` identity check compares
against. The `fuel` argument is a structural-recursion bound only; the
loop itself stops after at most 11 pushes (see `chainGo_fuel_succ`:
results are fuel-independent once `fuel` exceeds the remaining pushes), so
`extractChain` runs it with fuel 12, which is never exhausted. -/
def chainGo (issuer : Nat → Option Nat) (ne : Nat → Bool) (leaf : Nat) :
    Nat → Option Nat → List Nat → List Nat
  | 0, _, chain => chain
  | fuel + 1, cur?, chain =>
      match cur? with
      | none => chain
      | some cur =>
          if ne cur then
            let chain2 := chain ++ [cur]
            if issuer cur = some leaf || decide (chain2.length > 10) then chain2
            else chainGo issuer ne leaf fuel (issuer cur) chain2
          else chain

/-- The `chain` array built by `getCertificateInfo` (as certificate
addresses; `formatCertificate` applies to each entry). -/
def extractChain (issuer : Nat → Option Nat) (ne : Nat → Bool) (leaf : Nat) :
    List Nat :=
  chainGo issuer ne leaf 12 (some leaf) []

/-- The fuel is irrelevant once it exceeds the pushes the loop's own break
can still allow, so the fuel-based embedding computes the JavaScript
loop's result exactly. -/
theorem chainGo_fuel_succ (issuer : Nat → Option Nat) (ne : Nat → Bool)
    (leaf : Nat) :
    ∀ (fuel : Nat) (cur? : Option Nat) (chain : List Nat),
      chain.length ≤ 10 → 11 ≤ fuel + chain.length →
      chainGo issuer ne leaf (fuel + 1) cur? chain
        = chainGo issuer ne leaf fuel cur? chain := by
  intro fuel
  induction fuel with
  | zero => intro cur? chain h1 h2; omega
  | succ f ih =>
      intro cur? chain h1 h2
      cases cur? with
      | none => rfl
      | some cur =>
          simp only [chainGo]
          split
      
    
          · split
            · rfl
            · rename_i hbr
              have hgt2 : (chain ++ [cur]).length ≤ 10 := by
                by_contra hgt
                exact hbr (by
                  rw [Bool.or_eq_true]
                  right
                  exact decide_eq_true (by omega))
              have hL : (chain ++ [cur]).length = chain.length + 1 := by simp
              exact ih (issuer cur) (chain ++ [cur]) hgt2 (by omega)
          · rfl

theorem chainGo_length_le (issuer : Nat → Option Nat) (ne : Nat → Bool)
    (leaf : Nat) :
    ∀ (fuel : Nat) (cur? : Option Nat) (chain : List Nat),
      chain.length ≤ 10 → (chainGo issuer ne leaf fuel cur? chain).length ≤ 11 := by
  intro fuel
  induction fuel with
  | zero => intro cur? chain h; simpa [chainGo] using Nat.le_succ_of_le h
  | succ f ih =>
      intro cur? chain h
      cases cur? with
      | none => simpa [chainGo] using Nat.le_succ_of_le h
      | some cur =>
          simp only [chainGo]
          split
          · split
            · have hL : (chain ++ [cur]).length = chain.length + 1 := by simp
              omega
            · rename_i hbr
              have hgt2 : (chain ++ [cur]).length ≤ 10 := by
                by_contra hgt
                exact hbr (by
                  rw [Bool.or_eq_true]
                  right
                  exact decide_eq_true (by omega))
              exact ih (issuer cur) (chain ++ [cur]) hgt2
          · exact Nat.le_succ_of_le h

/-- C3 counterexample: on a straight-line issuer chain longer than the
bound (equally on any cycle that avoids the leaf), the loop pushes an
11th certificate before its `chain.length > 10` break fires: the chain
has 11 entries, not at most 10. -/
theorem extractChain_length_eleven_example :
    (extractChain (fun i => some (i + 1)) (fun _ => true) 0).length = 11 ∧
    ¬ (extractChain (fun i => some (i + 1)) (fun _ => true) 0).length ≤ 10 := by
  constructor <;> decide

/-- C3 (amended): chain extraction always terminates — the loop runs at
most 11 iterations — and the extracted chain contains at most 11
certificates, for every issuer graph including self-references and
cycles. -/
theorem extractChain_length_le_eleven (issuer : Nat → Option Nat)
    (ne : Nat → Bool) (leaf : Nat) :
    (extractChain issuer ne leaf).length ≤ 11 :=
  chainGo_length_le issuer ne leaf 12 (some leaf) [] (by simp)

/-! ## TLS version probing (`probeTLSVersions`) -/

/-- `TLS_VERSIONS` roster, in protocol order. -/
def TLS_VERSIONS : List String := ["TLSv1", "TLSv1.1", "TLSv1.2", "TLSv1.3"]

/-- Result of the version probe. `supported` models
`Object.entries(results)` (string keys in insertion order — the loop
inserts each version once, in `TLS_VERSIONS` order). -/
structure VersionProbe where
  supported : List (String × Bool)
  supportedVersions : List String
  minVersion : Option String
  maxVersion : Option String
  totalSupported : Nat

/-- JavaScript `x || null` on an optional string: `undefined` and the
empty string both become `null`. -/
def jsOrNull : Option String → Option String
  | some s => if s = "" then none else some s
  | none => none

/-- `probeTLSVersions` as a function of which pinned-version connections
succeed: the loop fills `results[version]` for each version in order, and
the summary is derived from `Object.entries(results)` exactly as in the
source. -/
def probeTLSVersions (succ : String → Bool) : VersionProbe :=
  let entries := TLS_VERSIONS.map (fun v => (v, succ v))
  let supportedVersions := (entries.filter (fun e => e.2)).map (fun e => e.1)
  { supported := entries,
    supportedVersions := supportedVersions,
    minVersion := jsOrNull supportedVersions.head?,
    maxVersion := jsOrNull supportedVersions.getLast?,
    totalSupported := supportedVersions.length }

theorem entries_filter_map (succ : String → Bool) (l : List String) :
    ((l.map (fun v => (v, succ v))).filter (fun e => e.2)).map (fun e => e.1)
      = l.filter succ := by
  induction l with
  | nil => rfl
  | cons v vs ih =>
      by_cases hv : succ v <;> simp [List.filter_cons, hv, ih]

theorem mem_TLS_VERSIONS_ne_empty (v : String) (hv : v ∈ TLS_VERSIONS) :
    v ≠ "" := by
  intro he
  subst he
  exact absurd hv (by decide)

/-- C7: `supportedVersions` is the order-preserving subset of
`TLS_VERSIONS` whose pinned connections succeeded, `minVersion` /
`maxVersion` are its first / last elements, and a host supporting exactly
TLS 1.2 and 1.3 yields `["TLSv1.2", "TLSv1.3"]` with those endpoints. -/
theorem probeTLSVersions_ordered_subset (succ : String → Bool) :
    (probeTLSVersions succ).supportedVersions = TLS_VERSIONS.filter succ ∧
    (probeTLSVersions succ).minVersion = (TLS_VERSIONS.filter succ).head? ∧
    (probeTLSVersions succ).maxVersion = (TLS_VERSIONS.filter succ).getLast? ∧
    (probeTLSVersions
        (fun v => v == "TLSv1.2" || v == "TLSv1.3")).supportedVersions
      = ["TLSv1.2", "TLSv1.3"] ∧
    (probeTLSVersions
        (fun v => v == "TLSv1.2" || v == "TLSv1.3")).minVersion
      = some "TLSv1.2" ∧
    (probeTLSVersions
        (fun v => v == "TLSv1.2" || v == "TLSv1.3")).maxVersion
      = some "TLSv1.3" := by
  have hsv : (probeTLSVersions succ).supportedVersions = TLS_VERSIONS.filter succ :=
    entries_filter_map succ TLS_VERSIONS
  refine ⟨hsv, ?_, ?_, by decide, by decide, by decide⟩
  · show jsOrNull ((probeTLSVersions succ).supportedVersions).head? = _
    rw [hsv]
    rcases hh : (TLS_VERSIONS.filter succ).head? with _ | v
    · simp [jsOrNull]
    · have hvm : v ∈ TLS_VERSIONS.filter succ :=
        List.mem_of_mem_head? (by rw [hh]; rfl)
      have hv : v ≠ "" :=
        mem_TLS_VERSIONS_ne_empty v (List.mem_filter.mp hvm).1
      simp [jsOrNull, hv]
  · show jsOrNull ((probeTLSVersions succ).supportedVersions).getLast? = _
    rw [hsv]
    rcases hh : (TLS_VERSIONS.filter succ).getLast? with _ | v
    · simp [jsOrNull]
    · have hvm : v ∈ TLS_VERSIONS.filter succ :=
        List.mem_of_mem_getLast? (by rw [hh]; rfl)
      have hv : v ≠ "" :=
        mem_TLS_VERSIONS_ne_empty v (List.mem_filter.mp hvm).1
      simp [jsOrNull, hv]

/-! ## Claim C6: the reverse-IPv6 key builder of the DNSBL checker -/

/-- `isIPv6` from the DNSBL checker: the regex
`^([0-9a-fA-F]{0,4}:){2,7}[0-9a-fA-F]{0,4}$`: splitting on `:` gives 3 to
8 fields, each 0 to 4 hex digits. -/
def isIPv6 (s : String) : Bool :=
  let parts := splitCharAux ':' s.data []
  3 ≤ parts.length && parts.length ≤ 8 &&
    parts.all (fun p =>
      p.length ≤ 4 &&
        p.all (fun c => c.isDigit || ('a' ≤ c && c ≤ 'f') || ('A' ≤ c && c ≤ 'F')))

/-- `reverseIPv6` from the DNSBL checker, working on groups as character
lists: split on `:`; for each empty field push `'0000'` once per
`j = 0 .. zerosNeeded` (that is `zerosNeeded + 1` times, with
`zerosNeeded = 8` minus the number of non-empty fields, and no pushes when
it is negative); pad other fields to 4 with `'0'`; concatenate the first
8 groups; reverse the characters and join with dots. -/
def reverseIPv6 (ip : String) : String :=
  let parts := splitCharAux ':' ip.data []
  let nonEmptyCount := (parts.filter (fun p => p ≠ [])).length
  let fullParts := parts.flatMap (fun p =>
    if p = [] then
      List.replicate ((8 - (nonEmptyCount : ℤ) + 1).toNat) ['0', '0', '0', '0']
    else [List.replicate (4 - p.length) '0' ++ p])
  let nibbles := (fullParts.take 8).flatMap id
  ⟨joinDot (nibbles.reverse.map (fun c => [c]))⟩

/-- Split a character list at its first `::`, if any. -/
def splitDoubleColon : List Char → Option (List Char × List Char)
  | [] => none
  | ':' :: ':' :: rest => some ([], rest)
  | c :: rest => (splitDoubleColon rest).map (fun pr => (c :: pr.1, pr.2))

/-- Modelled from the spec: "IPv6: expand to 32 nibbles, pad each group to
4 hex digits, reverse nibble order" — the reference expansion a correct
reverse-IPv6 key builder must compute: replace a `::` by the zero groups
needed to reach eight groups, pad every group to 4 hex digits, and emit
the 32 nibbles reversed, dot-separated. -/
def reverseIPv6Spec (ip : String) : String :=
  let groups :=
    match splitDoubleColon ip.data with
    | some (pre, post) =>
        let preG := (splitCharAux ':' pre []).filter (fun p => p ≠ [])
        let postG := (splitCharAux ':' post []).filter (fun p => p ≠ [])
        preG ++ List.replicate (8 - (preG.length + postG.length)) [] ++ postG
    | none => splitCharAux ':' ip.data []
  let nibbles := groups.flatMap (fun p => List.replicate (4 - p.length) '0' ++ p)
  ⟨joinDot (nibbles.reverse.map (fun c => [c]))⟩

/-- C6: the code's reverse-IPv6 key builder disagrees with the spec's
expansion on compressed addresses: for the valid address `::1` (which
passes the `isIPv6` guard) it pushes `zerosNeeded + 1` zero groups for
each of the two empty fields produced by the leading `::`, then truncates
to 8 groups, yielding the all-zero key (the key for `::`) instead of the
key ending in the `1` nibble. -/
theorem reverseIPv6_compressed_divergence :
    isIPv6 "::1" = true ∧
    reverseIPv6 "::1"
      = "0.0.0.0.0.0.0.0.0.0.0.0.0.0.0.0.0.0.0.0.0.0.0.0.0.0.0.0.0.0.0.0" ∧
    reverseIPv6Spec "::1"
      = "1.0.0.0.0.0.0.0.0.0.0.0.0.0.0.0.0.0.0.0.0.0.0.0.0.0.0.0.0.0.0.0" ∧
    reverseIPv6 "::1" ≠ reverseIPv6Spec "::1" := by
  refine ⟨by decide, by decide, by decide, by decide⟩
